import Mathlib

/-!
A shallow embedding of the BetaIRC server (`server.py`) and proofs about it.

Modelling conventions:
* Client sockets are opaque handles, modelled as `Nat`.
* Python dicts (`self.usernames`, `self.user_info`, `self.channels`) are
  association lists preserving insertion order, since Python 3.7 dicts
  iterate in insertion order (`usernames.values()`, `usernames.items()`,
  `channels.items()` are iterated by the code).
* Python sets of usernames (`channel["users"]`) are duplicate-free lists;
  only membership matters for the properties proved here, so the
  unspecified iteration order of a Python set is determinised to list order
  (it is only observable in display strings).
* JSON frames produced by `format_message` / `format_response` are modelled
  structurally; `json.dumps` is an injective encoding of these fields.
* `int(time.time())` is passed in as an explicit `now : Nat` parameter.
* Socket sends are collected in an output list `(socket, frame)`; the
  transport never fails in the model (the `except` branches of the Python
  code are unreachable here).
-/

namespace BetaIRC

/-- The characters Python `str.split()` / `str.strip()` treat as whitespace
(the ASCII ones: space, tab, newline, carriage return, vertical tab,
form feed). -/
def pyIsSpace (c : Char) : Bool :=
  c = ' ' || c = '\t' || c = '\n' || c = '\r' || c = Char.ofNat 11 || c = Char.ofNat 12

/-- Python `str.strip()` on a character list. -/
def pyStripL (l : List Char) : List Char :=
  ((l.dropWhile pyIsSpace).reverse.dropWhile pyIsSpace).reverse

/-- Python `str.strip()` (no argument: strips whitespace from both ends). -/
def pyStrip (s : String) : String :=
  ⟨pyStripL s.data⟩

/-- Python `str.split(maxsplit=n)` on a character list: skip a run of
whitespace; if nothing remains, stop; if the split budget is exhausted the
whole remainder (with its trailing whitespace) is the last field; otherwise
take a maximal run of non-whitespace as the next field. -/
def pySplitN : Nat → List Char → List (List Char)
  | n, s =>
    let t := s.dropWhile pyIsSpace
    if t.isEmpty then []
    else
      match n with
      | 0 => [t]
      | Nat.succ m => t.takeWhile (fun c => !(pyIsSpace c)) ::
          pySplitN m (t.dropWhile (fun c => !(pyIsSpace c)))

/-- Python `s.split(maxsplit=2)`. -/
def pySplit2 (s : String) : List String :=
  (pySplitN 2 s.data).map (fun l => ⟨l⟩)

/-- Python `str.upper()` (ASCII letters, which is all the code compares). -/
def pyUpper (s : String) : String :=
  ⟨s.data.map Char.toUpper⟩

/-- Python `s.startswith(c)` for a single-character prefix (the only form
the server uses: `/`, `#`). -/
def startsWithChar (s : String) (c : Char) : Bool :=
  match s.data with
  | [] => false
  | x :: _ => x = c

/-- A character allowed by the nickname pattern `[a-zA-Z0-9_]`. -/
def isNickChar (c : Char) : Bool :=
  c.isAlpha || c.isDigit || c = '_'

/-- The regex `^[a-zA-Z0-9_]{3,16}$` without the end-of-line subtlety:
3 to 16 characters, all alphanumeric or underscore. -/
def matchNickCore (s : String) : Bool :=
  decide (3 ≤ s.data.length) && decide (s.data.length ≤ 16) && s.data.all isNickChar

/-- Python `re.match(r'^[a-zA-Z0-9_]{3,16}$', s)`: `$` also matches just
before a newline at the end of the string. -/
def reMatchNick (s : String) : Bool :=
  matchNickCore s ||
    (s.data.getLast? == some '\n' && matchNickCore ⟨s.data.dropLast⟩)

/-- A protocol frame: either a message produced by
`IRCProtocol.format_message` or a response produced by
`IRCProtocol.format_response` (the JSON encoding is injective on these
fields, so frames are modelled structurally). -/
inductive Frame where
  | message (sender mtype recipient content : String) (timestamp : Nat)
  | response (code msg : String) (timestamp : Nat)
deriving DecidableEq

/-- Model of `IRCProtocol.parse_command`: a line not starting with `/` yields `none`
(the Python code returns `(None, None, None)`); otherwise the rest of the
line is split with `split(maxsplit=2)` into command (uppercased), target
and free-text content. -/
def parse_command (message : String) : Option (String × String × String) :=
  if startsWithChar message '/' then
    let parts := pySplit2 ⟨message.data.drop 1⟩
    let command := match parts with | [] => "" | p :: _ => pyUpper p
    let target := match parts with | _ :: t :: _ => t | _ => ""
    let content := match parts with | _ :: _ :: c :: _ => c | _ => ""
    some (command, target, content)
  else
    none

/-- First-match lookup in an association list (Python `dict.get` /
`dict[k]`; dicts never hold duplicate keys, so first match is the match). -/
def alookup {α β : Type} [DecidableEq α] : List (α × β) → α → Option β
  | [], _ => none
  | p :: t, k => if p.1 = k then some p.2 else alookup t k

/-- Python `d[k] = v` on a dict as an association list: an existing key
keeps its insertion position, a new key is appended. -/
def aset {α β : Type} [DecidableEq α] (l : List (α × β)) (k : α) (v : β) :
    List (α × β) :=
  if (alookup l k).isSome then
    l.map (fun p => if p.1 = k then (k, v) else p)
  else
    l ++ [(k, v)]

/-- Python `del d[k]` on a dict as an association list. -/
def aerase {α β : Type} [DecidableEq α] (l : List (α × β)) (k : α) :
    List (α × β) :=
  l.filter (fun p => p.1 ≠ k)

/-- Python `d.values()` in iteration (= insertion) order. -/
def avalues {α β : Type} (l : List (α × β)) : List β :=
  l.map (·.2)

/-- Python `set.add` on a duplicate-free list. -/
def sadd (l : List String) (x : String) : List String :=
  if x ∈ l then l else l ++ [x]

/-- Python `set.remove` (the code only calls it after a membership check,
so the `KeyError` case is unreachable). -/
def sremove (l : List String) (x : String) : List String :=
  l.filter (· ≠ x)

/-- Python `list.remove`: removes the first occurrence. -/
def removeFirst {α : Type} [DecidableEq α] : List α → α → List α
  | [], _ => []
  | x :: t, a => if x = a then t else x :: removeFirst t a

/-- One entry of `self.channels`: `{"users": set(), "topic": ..,
"created_at": ..}`. -/
structure Channel where
  users : List String
  topic : String
  created_at : Nat
deriving DecidableEq

/-- The mutable state of `IRCServer`: connected sockets, the
socket-to-username dict, the username-to-`connected_at` metadata dict
(the stored `ip` field is never read back, so it is omitted), the channel
dict, and the admin list. -/
structure ServerState where
  clients : List Nat
  usernames : List (Nat × String)
  user_info : List (String × Nat)
  channels : List (String × Channel)
  admins : List String
deriving DecidableEq

/-- The channel dict of `IRCServer.__init__`. -/
def initialChannels (now : Nat) : List (String × Channel) :=
  [("#general", ⟨[], "General discussion", now⟩),
   ("#help", ⟨[], "Get help with the server", now⟩)]

/-- Model of `IRCServer.__init__`: no clients, the two default channels, admin list
`["admin"]`. -/
def initialState (now : Nat) : ServerState :=
  { clients := [], usernames := [], user_info := [],
    channels := initialChannels now, admins := ["admin"] }

/-- Replace the channel stored under `k` (used where the Python code
mutates `self.channels[k]` in place). -/
def updateCh (l : List (String × Channel)) (k : String) (f : Channel → Channel) :
    List (String × Channel) :=
  l.map (fun p => if p.1 = k then (k, f p.2) else p)

/-- Model of `IRCServer.broadcast_to_channel`: nothing if the channel is unknown;
otherwise send to every connected socket whose current username is truthy,
a member of the channel and distinct from `exclude`. Sends are returned as
`(socket, frame)` pairs. -/
def broadcast_to_channel (st : ServerState) (channel : String) (f : Frame)
    (exclude : Option Nat) : List (Nat × Frame) :=
  match alookup st.channels channel with
  | none => []
  | some ch =>
      (st.clients.filter (fun sock =>
        match alookup st.usernames sock with
        | some u => u != "" && ch.users.contains u && !(exclude == some sock)
        | none => false)).map (fun sock => (sock, f))

/-- Model of `IRCServer.broadcast`: send to every connected socket. -/
def broadcastAll (st : ServerState) (f : Frame) : List (Nat × Frame) :=
  st.clients.map (fun sock => (sock, f))

/-- Model of `IRCServer.send_to_user`: the first socket in `usernames` iteration
order whose name matches, if any (the Python function sends and returns a
bool; the model returns the chosen socket). -/
def send_to_user (st : ServerState) (name : String) : Option Nat :=
  ((st.usernames.find? (fun p => p.2 == name)).map (·.1))

/-- Model of `IRCServer.disconnect_client`: if the socket has a truthy username,
remove that username from every channel's member set, delete the
`usernames` and `user_info` entries and broadcast a departure notice (over
the still-unmodified client list); in every case remove the socket from
`clients`. -/
def disconnect_client (st : ServerState) (c : Nat) (now : Nat) :
    ServerState × List (Nat × Frame) :=
  match alookup st.usernames c with
  | some u =>
      if u = "" then
        ({ st with clients := removeFirst st.clients c }, [])
      else
        let channels1 := st.channels.map (fun p =>
          if u ∈ p.2.users then (p.1, { p.2 with users := sremove p.2.users u })
          else p)
        let st1 : ServerState :=
          { st with channels := channels1,
                    usernames := aerase st.usernames c,
                    user_info := aerase st.user_info u }
        let sends := broadcastAll st1 (Frame.message "SERVER" "system" "all"
          (u ++ " has left the server.") now)
        ({ st1 with clients := removeFirst st1.clients c }, sends)
  | none =>
      ({ st with clients := removeFirst st.clients c }, [])

/-- Stable ascending insertion into a sorted list of strings (used to model
Python `sorted` on display strings). -/
def insertSorted (x : String) : List String → List String
  | [] => [x]
  | y :: t => if x ≤ y then x :: y :: t else y :: insertSorted x t

/-- Python `sorted` on strings (codepoint-lexicographic). -/
def sortStr (l : List String) : List String :=
  l.foldr insertSorted []

/-- Python `", ".join(l)`. -/
def joinComma (l : List String) : String :=
  String.intercalate ", " l

/-- The `CMD_NICK` branch of `handle_command` (the caller has already
established a truthy `username` for the socket). -/
def handleNick (st : ServerState) (c : Nat) (username target : String)
    (now : Nat) : ServerState × List (Nat × Frame) :=
  let new_nick := pyStrip target
  if new_nick = "" || !(reMatchNick new_nick) then
    (st, [(c, Frame.response "400"
      "Invalid nickname. Use 3-16 alphanumeric characters or underscores." now)])
  else if new_nick ∈ avalues st.usernames then
    (st, [(c, Frame.response "400" "Nickname already in use." now)])
  else
    let old_nick := username
    let st1 : ServerState :=
      { st with usernames := aset st.usernames c new_nick,
                channels := st.channels.map (fun p =>
                  if old_nick ∈ p.2.users then
                    (p.1, { p.2 with users := sadd (sremove p.2.users old_nick) new_nick })
                  else p) }
    (st1, broadcastAll st1 (Frame.message "SERVER" "system" "all"
      (old_nick ++ " is now known as " ++ new_nick) now))

/-- Normalise a channel argument: strip, then prepend `#` if absent. -/
def normChannel (target : String) : String :=
  let channel := pyStrip target
  if startsWithChar channel '#' then channel else "#" ++ channel

/-- The `CMD_JOIN` branch of `handle_command`. -/
def handleJoin (st : ServerState) (c : Nat) (username target : String)
    (now : Nat) : ServerState × List (Nat × Frame) :=
  let channel := normChannel target
  let channels1 :=
    if (alookup st.channels channel).isSome then st.channels
    else st.channels ++ [(channel, ⟨[], "Welcome to " ++ channel, now⟩)]
  let st1 : ServerState :=
    { st with channels := (updateCh channels1 channel
        (fun ch => { ch with users := sadd ch.users username })) }
  let joined := (alookup st1.channels channel).elim [] Channel.users
  let topic := (alookup st1.channels channel).elim "" Channel.topic
  (st1,
    broadcast_to_channel st1 channel
      (Frame.message "SERVER" "system" channel
        (username ++ " has joined " ++ channel) now) none
    ++ [(c, Frame.message "SERVER" "system" username
          ("Topic for " ++ channel ++ ": " ++ topic) now),
        (c, Frame.message "SERVER" "system" username
          ("Users in " ++ channel ++ ": " ++ joinComma joined) now)])

/-- The `CMD_LEAVE` branch of `handle_command`. -/
def handleLeave (st : ServerState) (c : Nat) (username target : String)
    (now : Nat) : ServerState × List (Nat × Frame) :=
  let channel := normChannel target
  match alookup st.channels channel with
  | none =>
      (st, [(c, Frame.response "404" ("Channel " ++ channel ++ " not found.") now)])
  | some ch =>
      if username ∉ ch.users then
        (st, [(c, Frame.response "400" ("You are not in " ++ channel ++ ".") now)])
      else
        let st1 : ServerState :=
          { st with channels := (updateCh st.channels channel
              (fun cdata => { cdata with users := sremove cdata.users username })) }
        let sends := broadcast_to_channel st1 channel
          (Frame.message "SERVER" "system" channel
            (username ++ " has left " ++ channel) now) none
        let nowEmpty := (alookup st1.channels channel).elim false
          (fun cdata => cdata.users.isEmpty)
        let st2 : ServerState :=
          if nowEmpty && !(channel = "#general" || channel = "#help") then
            { st1 with channels := aerase st1.channels channel }
          else st1
        (st2, sends)

/-- The `CMD_LIST` branch of `handle_command` (read-only). -/
def handleList (st : ServerState) (c : Nat) (username target : String)
    (now : Nat) : ServerState × List (Nat × Frame) :=
  if target = "" || target = "channels" then
    let lines := st.channels.map (fun p =>
      p.1 ++ " (" ++ toString p.2.users.length ++ " users) - " ++ p.2.topic)
    (st, [(c, Frame.message "SERVER" "system" username
      ("Available channels:\n" ++ String.intercalate "\n" lines) now)])
  else if startsWithChar target '#' then
    match alookup st.channels target with
    | none =>
        (st, [(c, Frame.response "404" ("Channel " ++ target ++ " not found.") now)])
    | some ch =>
        (st, [(c, Frame.message "SERVER" "system" username
          ("Users in " ++ target ++ " (" ++ toString ch.users.length ++ "): "
            ++ joinComma (sortStr ch.users)) now)])
  else
    (st, [(c, Frame.message "SERVER" "system" username
      ("Connected users (" ++ toString st.usernames.length ++ "): "
        ++ joinComma (sortStr (avalues st.usernames))) now)])

/-- The `CMD_MSG` branch of `handle_command`. -/
def handleMsg (st : ServerState) (c : Nat) (username target content : String)
    (now : Nat) : ServerState × List (Nat × Frame) :=
  let recipient := pyStrip target
  if recipient = "" || content = "" then
    (st, [(c, Frame.response "400" "Usage: /msg <username> <message>" now)])
  else if recipient ∉ avalues st.usernames then
    (st, [(c, Frame.response "404" ("User " ++ recipient ++ " not found.") now)])
  else
    let pm := Frame.message username "private" recipient content now
    match send_to_user st recipient with
    | some r =>
        (st, [(r, pm),
              (c, Frame.message "SERVER" "system" username
                ("Message sent to " ++ recipient) now)])
    | none =>
        (st, [(c, Frame.response "400"
          ("Failed to send message to " ++ recipient) now)])

/-- The `CMD_WHOIS` branch of `handle_command` (read-only). -/
def handleWhois (st : ServerState) (c : Nat) (username target : String)
    (now : Nat) : ServerState × List (Nat × Frame) :=
  let target_user := pyStrip target
  if target_user = "" then
    (st, [(c, Frame.response "400" "Usage: /whois <username>" now)])
  else if target_user ∉ avalues st.usernames then
    (st, [(c, Frame.response "404" ("User " ++ target_user ++ " not found.") now)])
  else
    let user_channels := (st.channels.filter
      (fun p => p.2.users.contains target_user)).map (·.1)
    let connected_since := (alookup st.user_info target_user).elim "unknown" toString
    (st, [(c, Frame.message "SERVER" "system" username
      ("User: " ++ target_user ++ "\nChannels: " ++ joinComma user_channels
        ++ "\nConnected since: " ++ connected_since) now)])

/-- The `CMD_QUIT` branch of `handle_command`: broadcast a departure notice
(over the full client list, before any cleanup), then disconnect. -/
def handleQuit (st : ServerState) (c : Nat) (username content : String)
    (now : Nat) : ServerState × List (Nat × Frame) :=
  let quit_message := if content = "" then "Leaving" else content
  let sends0 := broadcastAll st
    (Frame.message username "system" "all" ("has quit: " ++ quit_message) now)
  let r := disconnect_client st c now
  (r.1, sends0 ++ r.2)

/-- The static `/help` text sent by `CMD_HELP`. -/
def helpText : String :=
  "Available commands:\n"
  ++ "/nick <new_nickname> - Change your nickname\n"
  ++ "/join <channel> - Join a channel\n"
  ++ "/leave <channel> - Leave a channel\n"
  ++ "/list [channels|#channel] - List channels or users in a channel\n"
  ++ "/msg <username> <message> - Send private message\n"
  ++ "/whois <username> - Get information about a user\n"
  ++ "/quit [message] - Disconnect from server\n"
  ++ "/help - Show this help message"

/-- Model of `IRCServer.handle_command`: no-op for a socket without a truthy
username, otherwise dispatch on the (already uppercased) command name. -/
def handle_command (st : ServerState) (c : Nat)
    (command target content : String) (now : Nat) :
    ServerState × List (Nat × Frame) :=
  match alookup st.usernames c with
  | none => (st, [])
  | some username =>
      if username = "" then (st, [])
      else if command = "NICK" then handleNick st c username target now
      else if command = "JOIN" then handleJoin st c username target now
      else if command = "LEAVE" then handleLeave st c username target now
      else if command = "LIST" then handleList st c username target now
      else if command = "MSG" then handleMsg st c username target content now
      else if command = "WHOIS" then handleWhois st c username target now
      else if command = "KICK" || command = "BAN" then
        if username ∉ st.admins then
          (st, [(c, Frame.response "403"
            "You don't have permission to use this command." now)])
        else (st, [])
      else if command = "QUIT" then handleQuit st c username content now
      else if command = "HELP" then
        (st, [(c, Frame.message "SERVER" "system" username helpText now)])
      else
        (st, [(c, Frame.response "400" ("Unknown command: " ++ command) now)])

/-- The registration part of `IRCServer.handle_client` (lines 399-437):
validate the candidate username, then install it in `usernames` and
`user_info`, add it to `#general`, and send the welcome/join notices. -/
def register_client (st : ServerState) (c : Nat) (username : String)
    (now : Nat) : ServerState × List (Nat × Frame) :=
  if username = "" || !(reMatchNick username) then
    (st, [(c, Frame.response "400"
      "Invalid username. Use 3-16 alphanumeric characters or underscores." now)])
  else if username ∈ avalues st.usernames then
    (st, [(c, Frame.response "400"
      "Username already in use. Please choose another one." now)])
  else
    let st1 : ServerState :=
      { st with usernames := aset st.usernames c username,
                user_info := aset st.user_info username now,
                channels := updateCh st.channels "#general"
                  (fun ch => { ch with users := sadd ch.users username }) }
    let online := toString st1.usernames.length
    (st1,
      [(c, Frame.message "SERVER" "system" username
        ("Welcome to BetaIRC v1.0.0! There are " ++ online ++ " users online.\n"
          ++ "Type /help for available commands.") now)]
      ++ broadcastAll st1 (Frame.message "SERVER" "system" "all"
          (username ++ " has joined the server") now)
      ++ broadcast_to_channel st1 "#general"
          (Frame.message "SERVER" "system" "#general"
            (username ++ " has joined #general") now) none)

/-- The plain-message path of the `handle_client` receive loop (lines
455-472): collect the channels whose member set contains `username` (in
channel-dict insertion order), post to `#general` when it is among them,
otherwise to the first, and send a 400 error when there are none. -/
def plain_post (st : ServerState) (c : Nat) (username line : String)
    (now : Nat) : ServerState × List (Nat × Frame) :=
  let user_channels := (st.channels.filter
    (fun p => p.2.users.contains username)).map (·.1)
  match user_channels with
  | [] =>
      (st, [(c, Frame.response "400"
        "You are not in any channel. Join a channel first." now)])
  | first :: _ =>
      let target_channel := if "#general" ∈ user_channels then "#general" else first
      (st, broadcast_to_channel st target_channel
        (Frame.message username "channel" target_channel line now) none)

/-- One iteration of the `handle_client` receive loop: parse the line; a
truthy command name is dispatched to `handle_command`, anything else
(including a non-`/` line and a bare `/`) is a plain post. `username` is
the name captured at registration (the Python code closes over it). -/
def handle_line (st : ServerState) (c : Nat) (username line : String)
    (now : Nat) : ServerState × List (Nat × Frame) :=
  match parse_command line with
  | some (command, target, content) =>
      if command ≠ "" then handle_command st c command target content now
      else plain_post st c username line now
  | none => plain_post st c username line now

/-- One observable transition of the server: accepting a connection
(`run` appends the socket to `clients`), registering a username, handling
one received line (command or plain post), or disconnecting a client. -/
inductive Step : ServerState → ServerState → Prop where
  | accept (st : ServerState) (c : Nat) :
      Step st { st with clients := st.clients ++ [c] }
  | register (st : ServerState) (c : Nat) (u : String) (now : Nat) :
      Step st (register_client st c u now).1
  | line (st : ServerState) (c : Nat) (u l : String) (now : Nat) :
      Step st (handle_line st c u l now).1
  | disconnect (st : ServerState) (c : Nat) (now : Nat) :
      Step st (disconnect_client st c now).1

/-- The two default channels exist. -/
def DefaultsExist (st : ServerState) : Prop :=
  (alookup st.channels "#general").isSome ∧ (alookup st.channels "#help").isSome

/-- Every channel other than the two defaults has a non-empty member set. -/
def NonDefaultNonempty (st : ServerState) : Prop :=
  ∀ p ∈ st.channels, p.1 ≠ "#general" → p.1 ≠ "#help" → p.2.users ≠ []

/-- The channel invariant claimed by the spec: the default channels exist,
and every other channel has a non-empty member set. -/
def ChanInv (st : ServerState) : Prop :=
  DefaultsExist st ∧ NonDefaultNonempty st

instance (st : ServerState) : Decidable (DefaultsExist st) := by
  unfold DefaultsExist; infer_instance

instance (st : ServerState) : Decidable (NonDefaultNonempty st) := by
  unfold NonDefaultNonempty; infer_instance

instance (st : ServerState) : Decidable (ChanInv st) := by
  unfold ChanInv; infer_instance

/-- Dict keys are unique in Python; this is the representation invariant of
modelling `self.channels` as an association list. -/
def ChannelKeysNodup (st : ServerState) : Prop :=
  (st.channels.map (·.1)).Nodup

instance (st : ServerState) : Decidable (ChannelKeysNodup st) := by
  unfold ChannelKeysNodup; infer_instance

/-- Reachable example: socket 7 accepted. -/
def cexSt1 : ServerState :=
  { initialState 0 with clients := (initialState 0).clients ++ [7] }

/-- Reachable example: socket 7 registered as `alice`. -/
def cexSt2 : ServerState := (register_client cexSt1 7 "alice" 1).1

/-- Reachable example: `alice` joined the auto-created `#random`. -/
def cexSt3 : ServerState := (handle_line cexSt2 7 "alice" "/join random" 2).1

/-- Reachable example: `alice` disconnected while sole member of `#random`. -/
def cexSt4 : ServerState := (disconnect_client cexSt3 7 3).1

/-- Reachable example: starting from `cexSt2` (socket 7 registered as
`alice`, member of `#general`), the client issues `/nick bob`.  The rename
succeeds, but the receive loop's closure variable for socket 7 remains
`"alice"`. -/
def c5RenSt : ServerState := (handle_line cexSt2 7 "alice" "/nick bob" 2).1

/-- A small concrete state used to instantiate the universally quantified
theorems: two clients, `alice` in `#general` and `#random`, `bob` in
`#general`. -/
def wSt : ServerState :=
  { clients := [0, 1],
    usernames := [(0, "alice"), (1, "bob")],
    user_info := [("alice", 1), ("bob", 2)],
    channels :=
      [("#general", ⟨["alice", "bob"], "General discussion", 0⟩),
       ("#help", ⟨[], "Get help with the server", 0⟩),
       ("#random", ⟨["alice"], "Welcome to #random", 2⟩)],
    admins := ["admin"] }

/-! ### Association list and set lemmas -/

theorem alookup_map {α β : Type} [DecidableEq α] (F : α × β → α × β)
    (hF : ∀ p, (F p).1 = p.1) :
    ∀ (l : List (α × β)) (k : α),
      alookup (l.map F) k = (alookup l k).map (fun b => (F (k, b)).2)
  | [], _ => rfl
  | p :: t, k => by
      simp only [List.map_cons, alookup, hF p]
      by_cases h : p.1 = k
      · have : F (k, p.2) = F p := by
          rw [show ((k : α), p.2) = p from Prod.ext h.symm rfl]
        simp [h, this]
      · simp [h, alookup_map F hF t k]

theorem alookup_append_left {α β : Type} [DecidableEq α]
    (l l' : List (α × β)) (k : α) (h : (alookup l k).isSome) :
    alookup (l ++ l') k = alookup l k := by
  induction l with
  | nil => simp [alookup] at h
  | cons p t ih =>
      simp only [List.cons_append, alookup]
      by_cases hp : p.1 = k
      · simp [hp]
      · simp only [alookup, hp, if_false] at h ⊢
        exact ih h

theorem alookup_append_right {α β : Type} [DecidableEq α]
    (l l' : List (α × β)) (k : α) (h : alookup l k = none) :
    alookup (l ++ l') k = alookup l' k := by
  induction l with
  | nil => rfl
  | cons p t ih =>
      simp only [List.cons_append, alookup] at h ⊢
      by_cases hp : p.1 = k
      · simp [hp] at h
      · simp only [hp, if_false] at h ⊢
        exact ih h

theorem aerase_cons {α β : Type} [DecidableEq α] (p : α × β)
    (t : List (α × β)) (k : α) :
    aerase (p :: t) k = if p.1 = k then aerase t k else p :: aerase t k := by
  by_cases h : p.1 = k <;> simp [aerase, List.filter_cons, h]

theorem alookup_aerase_ne {α β : Type} [DecidableEq α]
    (l : List (α × β)) (k k' : α) (h : k ≠ k') :
    alookup (aerase l k') k = alookup l k := by
  induction l with
  | nil => rfl
  | cons p t ih =>
      rw [aerase_cons]
      by_cases hp : p.1 = k'
      · rw [if_pos hp, ih]
        have hk : p.1 ≠ k := fun he => h (he ▸ hp)
        simp [alookup, hk]
      · rw [if_neg hp]
        by_cases hk : p.1 = k
        · simp [alookup, hk]
        · simp only [alookup, hk, if_false]
          exact ih

theorem alookup_aerase_self {α β : Type} [DecidableEq α]
    (l : List (α × β)) (k : α) :
    alookup (aerase l k) k = none := by
  induction l with
  | nil => rfl
  | cons p t ih =>
      rw [aerase_cons]
      by_cases hp : p.1 = k
      · rw [if_pos hp]; exact ih
      · rw [if_neg hp]
        simp only [alookup, hp, if_false]
        exact ih

theorem alookup_aset_self {α β : Type} [DecidableEq α]
    (l : List (α × β)) (k : α) (v : β) :
    alookup (aset l k v) k = some v := by
  unfold aset
  by_cases h : (alookup l k).isSome
  · rw [if_pos h]
    induction l with
    | nil => simp [alookup] at h
    | cons p t ih =>
        simp only [List.map_cons, alookup]
        by_cases hp : p.1 = k
        · simp [hp]
        · simp only [hp, if_false]
          simp only [alookup, hp, if_false] at h
          exact ih h
  · rw [if_neg h]
    have hn : alookup l k = none := by
      cases he : alookup l k with
      | none => rfl
      | some w => rw [he] at h; simp at h
    rw [alookup_append_right _ _ _ hn]
    simp [alookup]

theorem mem_avalues_of_alookup {α β : Type} [DecidableEq α]
    {l : List (α × β)} {k : α} {v : β} (h : alookup l k = some v) :
    v ∈ avalues l := by
  induction l with
  | nil => simp [alookup] at h
  | cons p t ih =>
      simp only [alookup] at h
      by_cases hp : p.1 = k
      · rw [if_pos hp] at h
        simp only [avalues, List.map_cons, List.mem_cons]
        exact Or.inl (Option.some.inj h).symm
      · rw [if_neg hp] at h
        simp only [avalues, List.map_cons, List.mem_cons]
        exact Or.inr (by simpa [avalues] using ih h)

theorem alookup_eq_of_mem_nodup {α β : Type} [DecidableEq α]
    {l : List (α × β)} {p : α × β} (hnd : (l.map (·.1)).Nodup)
    (hm : p ∈ l) : alookup l p.1 = some p.2 := by
  induction l with
  | nil => simp at hm
  | cons q t ih =>
      simp only [List.map_cons, List.nodup_cons] at hnd
      rcases List.mem_cons.mp hm with h | h
      · subst h; simp [alookup]
      · have hq : q.1 ≠ p.1 := by
          intro he
          apply hnd.1
          rw [he]
          exact List.mem_map.mpr ⟨p, h, rfl⟩
        simp only [alookup, hq, if_false]
        exact ih hnd.2 h

theorem sadd_ne_nil (l : List String) (x : String) : sadd l x ≠ [] := by
  unfold sadd
  by_cases h : x ∈ l
  · simp only [h, if_true]
    exact List.ne_nil_of_mem h
  · simp [h]

theorem mem_sadd {l : List String} {x y : String} :
    y ∈ sadd l x ↔ y ∈ l ∨ y = x := by
  unfold sadd
  by_cases h : x ∈ l
  · simp only [h, if_true]
    constructor
    · exact Or.inl
    · rintro (hy | rfl) <;> [exact hy; exact h]
  · simp [h]

theorem mem_sremove {l : List String} {x y : String} :
    y ∈ sremove l x ↔ y ∈ l ∧ y ≠ x := by
  unfold sremove
  simp [List.mem_filter]

theorem not_mem_sremove_self (l : List String) (x : String) :
    x ∉ sremove l x := by
  simp [mem_sremove]

theorem removeFirst_eq_of_not_mem {α : Type} [DecidableEq α]
    {l : List α} {a : α} (h : a ∉ l) : removeFirst l a = l := by
  induction l with
  | nil => rfl
  | cons x t ih =>
      simp only [List.mem_cons, not_or] at h
      simp only [removeFirst]
      rw [if_neg (fun he => h.1 he.symm)]
      rw [ih h.2]

theorem not_mem_removeFirst {α : Type} [DecidableEq α]
    {l : List α} {a : α} (h : l.count a ≤ 1) : a ∉ removeFirst l a := by
  induction l with
  | nil => simp [removeFirst]
  | cons x t ih =>
      simp only [removeFirst]
      by_cases hx : x = a
      · simp only [hx, if_true]
        have : t.count a = 0 := by
          simp [List.count_cons, hx] at h
          omega
        exact (List.count_eq_zero.mp this)
      · simp only [hx, if_false]
        intro hm
        rcases List.mem_cons.mp hm with he | hm2
        · exact hx he.symm
        · have ht : t.count a ≤ 1 := by
            simp [List.count_cons, hx] at h ⊢
            omega
          exact ih ht hm2

/-! ### Nickname and strip lemmas -/

theorem nickChar_not_space {c : Char} (h : isNickChar c = true) :
    pyIsSpace c = false := by
  by_contra hs
  rw [Bool.not_eq_false] at hs
  simp only [pyIsSpace, Bool.or_eq_true, decide_eq_true_eq] at hs
  rcases hs with ((((h1 | h1) | h1) | h1) | h1) | h1 <;>
    (subst h1; exact absurd h (by decide))

theorem stripL_eq_self {l : List Char}
    (h : ∀ c ∈ l, pyIsSpace c = false) : pyStripL l = l := by
  have h1 : l.dropWhile pyIsSpace = l := by
    cases l with
    | nil => rfl
    | cons x t =>
        rw [List.dropWhile_cons]
        rw [h x (List.mem_cons_self x t)]
        simp
  have h2 : l.reverse.dropWhile pyIsSpace = l.reverse := by
    cases hr : l.reverse with
    | nil => rfl
    | cons x t =>
        rw [List.dropWhile_cons]
        have hx : x ∈ l := by
          rw [← List.mem_reverse, hr]
          exact List.mem_cons_self x t
        rw [h x hx]
        simp
  unfold pyStripL
  rw [h1, h2, List.reverse_reverse]

theorem pyStrip_eq_self_of_core {s : String}
    (h : matchNickCore s = true) : pyStrip s = s := by
  simp only [matchNickCore, Bool.and_eq_true, decide_eq_true_eq,
    List.all_eq_true] at h
  have hall : ∀ c ∈ s.data, pyIsSpace c = false :=
    fun c hc => nickChar_not_space (h.2 c hc)
  show (⟨pyStripL s.data⟩ : String) = s
  rw [stripL_eq_self hall]

/-! ### State-unchanged lemmas for the read-only handlers -/

theorem plain_post_state (st : ServerState) (c : Nat) (u l : String)
    (now : Nat) : (plain_post st c u l now).1 = st := by
  unfold plain_post
  try dsimp only
  split <;> rfl

theorem handleList_state (st : ServerState) (c : Nat) (u t : String)
    (now : Nat) : (handleList st c u t now).1 = st := by
  unfold handleList
  try dsimp only
  split
  · rfl
  · split
    · split <;> rfl
    · rfl

theorem handleMsg_state (st : ServerState) (c : Nat) (u t cnt : String)
    (now : Nat) : (handleMsg st c u t cnt now).1 = st := by
  unfold handleMsg
  try dsimp only
  split
  · rfl
  · split
    · rfl
    · split <;> rfl

theorem handleWhois_state (st : ServerState) (c : Nat) (u t : String)
    (now : Nat) : (handleWhois st c u t now).1 = st := by
  unfold handleWhois
  try dsimp only
  split
  · rfl
  · split <;> rfl

/-! ### Lookup behaviour of the channel-updating operations -/

theorem updateCh_alookup (l : List (String × Channel)) (k k' : String)
    (f : Channel → Channel) :
    alookup (updateCh l k f) k' =
      (alookup l k').map (fun ch => if k' = k then f ch else ch) := by
  unfold updateCh
  rw [alookup_map (fun p => if p.1 = k then (k, f p.2) else p)
    (fun p => by dsimp only; split <;> simp_all)]
  by_cases h : k' = k <;> simp [h]

theorem updateCh_isSome (l : List (String × Channel)) (k k' : String)
    (f : Channel → Channel) :
    (alookup (updateCh l k f) k').isSome = (alookup l k').isSome := by
  rw [updateCh_alookup]
  cases alookup l k' <;> simp

theorem alookup_map_isSome {α β : Type} [DecidableEq α]
    (F : α × β → α × β) (hF : ∀ p, (F p).1 = p.1)
    (l : List (α × β)) (k : α) :
    (alookup (l.map F) k).isSome = (alookup l k).isSome := by
  rw [alookup_map F hF]
  cases alookup l k <;> simp

/-! ### Preservation of the default channels -/

theorem defaultsExist_intro {st : ServerState}
    (hg : (alookup st.channels "#general").isSome = true)
    (hh : (alookup st.channels "#help").isSome = true) :
    DefaultsExist st :=
  ⟨hg, hh⟩

theorem disconnect_defaults (st : ServerState) (c : Nat) (now : Nat)
    (h : DefaultsExist st) : DefaultsExist (disconnect_client st c now).1 := by
  unfold disconnect_client
  cases hu : alookup st.usernames c with
  | none => exact h
  | some u =>
      try dsimp only
      by_cases hue : u = ""
      · rw [if_pos hue]; exact h
      · rw [if_neg hue]
        refine defaultsExist_intro ?_ ?_
        · dsimp only
          rw [alookup_map_isSome _ (fun p => by split <;> rfl)]
          exact h.1
        · dsimp only
          rw [alookup_map_isSome _ (fun p => by split <;> rfl)]
          exact h.2

theorem handleNick_defaults (st : ServerState) (c : Nat) (u t : String)
    (now : Nat) (h : DefaultsExist st) :
    DefaultsExist (handleNick st c u t now).1 := by
  unfold handleNick
  try dsimp only
  split
  · exact h
  · split
    · exact h
    · refine defaultsExist_intro ?_ ?_
      · dsimp only
        rw [alookup_map_isSome _ (fun p => by split <;> rfl)]
        exact h.1
      · dsimp only
        rw [alookup_map_isSome _ (fun p => by split <;> rfl)]
        exact h.2

theorem handleJoin_defaults (st : ServerState) (c : Nat) (u t : String)
    (now : Nat) (h : DefaultsExist st) :
    DefaultsExist (handleJoin st c u t now).1 := by
  unfold handleJoin
  try dsimp only
  refine defaultsExist_intro ?_ ?_
  · dsimp only
    rw [updateCh_isSome]
    split
    · exact h.1
    · rw [alookup_append_left _ _ _ h.1]
      exact h.1
  · dsimp only
    rw [updateCh_isSome]
    split
    · exact h.2
    · rw [alookup_append_left _ _ _ h.2]
      exact h.2

theorem handleLeave_defaults (st : ServerState) (c : Nat) (u t : String)
    (now : Nat) (h : DefaultsExist st) :
    DefaultsExist (handleLeave st c u t now).1 := by
  unfold handleLeave
  try dsimp only
  split
  · exact h
  · split
    · exact h
    · dsimp only
      split
      · rename_i hguard
        have hg : normChannel t ≠ "#general" := by
          intro he; rw [he] at hguard; simp at hguard
        have hh : normChannel t ≠ "#help" := by
          intro he; rw [he] at hguard; simp at hguard
        refine defaultsExist_intro ?_ ?_
        · dsimp only
          rw [alookup_aerase_ne _ _ _ (fun he => hg he.symm), updateCh_isSome]
          exact h.1
        · dsimp only
          rw [alookup_aerase_ne _ _ _ (fun he => hh he.symm), updateCh_isSome]
          exact h.2
      · refine defaultsExist_intro ?_ ?_
        · dsimp only
          rw [updateCh_isSome]
          exact h.1
        · dsimp only
          rw [updateCh_isSome]
          exact h.2

theorem handleQuit_defaults (st : ServerState) (c : Nat) (u cnt : String)
    (now : Nat) (h : DefaultsExist st) :
    DefaultsExist (handleQuit st c u cnt now).1 := by
  unfold handleQuit
  try dsimp only
  exact disconnect_defaults st c now h

theorem register_defaults (st : ServerState) (c : Nat) (u : String)
    (now : Nat) (h : DefaultsExist st) :
    DefaultsExist (register_client st c u now).1 := by
  unfold register_client
  split
  · exact h
  · split
    · exact h
    · refine defaultsExist_intro ?_ ?_
      · dsimp only
        rw [updateCh_isSome]
        exact h.1
      · dsimp only
        rw [updateCh_isSome]
        exact h.2

set_option maxHeartbeats 2000000 in
theorem handle_command_defaults (st : ServerState) (c : Nat)
    (command target content : String) (now : Nat) (h : DefaultsExist st) :
    DefaultsExist (handle_command st c command target content now).1 := by
  unfold handle_command
  cases hu : alookup st.usernames c with
  | none => exact h
  | some username =>
      try dsimp only
      repeat' split
      all_goals
        first
          | exact h
          | exact handleNick_defaults _ _ _ _ _ h
          | exact handleJoin_defaults _ _ _ _ _ h
          | exact handleLeave_defaults _ _ _ _ _ h
          | (rw [handleList_state]; exact h)
          | (rw [handleMsg_state]; exact h)
          | (rw [handleWhois_state]; exact h)
          | exact handleQuit_defaults _ _ _ _ _ h

theorem handle_line_defaults (st : ServerState) (c : Nat) (u l : String)
    (now : Nat) (h : DefaultsExist st) :
    DefaultsExist (handle_line st c u l now).1 := by
  unfold handle_line
  cases hp : parse_command l with
  | none => rw [plain_post_state]; exact h
  | some trip =>
      try dsimp only
      split
      · exact handle_command_defaults _ _ _ _ _ _ h
      · rw [plain_post_state]; exact h

/-! ### Preservation of non-default channel non-emptiness -/

theorem updateCh_keys (l : List (String × Channel)) (k : String)
    (f : Channel → Channel) :
    (updateCh l k f).map (·.1) = l.map (·.1) := by
  unfold updateCh
  rw [List.map_map]
  exact List.map_congr_left (fun p _ => by dsimp only [Function.comp]; split <;> simp_all)

theorem handleNick_nonempty (st : ServerState) (c : Nat) (u t : String)
    (now : Nat) (h : NonDefaultNonempty st) :
    NonDefaultNonempty (handleNick st c u t now).1 := by
  unfold handleNick
  try dsimp only
  split
  · exact h
  · split
    · exact h
    · intro p hp hg hh
      dsimp only at hp
      obtain ⟨q, hq, rfl⟩ := List.mem_map.mp hp
      by_cases hm : u ∈ q.2.users
      · rw [if_pos hm]
        exact sadd_ne_nil _ _
      · rw [if_neg hm]
        rw [if_neg hm] at hg hh
        exact h q hq hg hh

theorem handleJoin_nonempty (st : ServerState) (c : Nat) (u t : String)
    (now : Nat) (h : NonDefaultNonempty st) :
    NonDefaultNonempty (handleJoin st c u t now).1 := by
  unfold handleJoin
  try dsimp only
  intro p hp hg hh
  unfold updateCh at hp
  obtain ⟨q, hq, rfl⟩ := List.mem_map.mp hp
  by_cases hk : q.1 = normChannel t
  · rw [if_pos hk]
    exact sadd_ne_nil _ _
  · rw [if_neg hk]
    rw [if_neg hk] at hg hh
    split at hq
    · exact h q hq hg hh
    · rcases List.mem_append.mp hq with hq1 | hq1
      · exact h q hq1 hg hh
      · exfalso
        apply hk
        rw [List.mem_singleton.mp hq1]

theorem handleLeave_nonempty (st : ServerState) (c : Nat) (u t : String)
    (now : Nat) (hnd : ChannelKeysNodup st) (h : NonDefaultNonempty st) :
    NonDefaultNonempty (handleLeave st c u t now).1 := by
  unfold handleLeave
  try dsimp only
  split
  · exact h
  · split
    · exact h
    · dsimp only
      split
      · -- the emptied channel is deleted
        intro p hp hg hh
        have hp2 := List.mem_filter.mp hp
        have hkne : p.1 ≠ normChannel t := by
          have := hp2.2
          simpa using this
        have hp3 := hp2.1
        unfold updateCh at hp3
        obtain ⟨q, hq, he⟩ := List.mem_map.mp hp3
        by_cases hk : q.1 = normChannel t
        · rw [if_pos hk] at he
          exact absurd (by rw [← he]) hkne
        · rw [if_neg hk] at he
          subst he
          exact h q hq hg hh
      · -- no deletion: the guard is false
        rename_i hguard
        intro p hp hg hh
        unfold updateCh at hp
        obtain ⟨q, hq, rfl⟩ := List.mem_map.mp hp
        by_cases hk : q.1 = normChannel t
        · rw [if_pos hk]
          rw [if_pos hk] at hg hh
          dsimp only at hg hh ⊢
          intro hnil
          -- by key-uniqueness, the entry named `normChannel t` after the
          -- removal is exactly the one obtained from `q`
          have hnd1 : ((updateCh st.channels (normChannel t)
              (fun cdata => { cdata with users := sremove cdata.users u })).map (·.1)).Nodup := by
            rw [updateCh_keys]
            exact hnd
          have hmem : ((normChannel t),
              ({ q.2 with users := sremove q.2.users u } : Channel)) ∈
              updateCh st.channels (normChannel t)
                (fun cdata => { cdata with users := sremove cdata.users u }) := by
            unfold updateCh
            refine List.mem_map.mpr ⟨q, hq, ?_⟩
            rw [if_pos hk]
          have hlook := alookup_eq_of_mem_nodup hnd1 hmem
          rw [Bool.not_eq_true] at hguard
          rw [hlook] at hguard
          simp [hnil, hg, hh] at hguard
        · rw [if_neg hk]
          rw [if_neg hk] at hg hh
          exact h q hq hg hh

theorem register_nonempty (st : ServerState) (c : Nat) (u : String)
    (now : Nat) (h : NonDefaultNonempty st) :
    NonDefaultNonempty (register_client st c u now).1 := by
  unfold register_client
  split
  · exact h
  · split
    · exact h
    · intro p hp hg hh
      dsimp only at hp
      unfold updateCh at hp
      obtain ⟨q, hq, rfl⟩ := List.mem_map.mp hp
      by_cases hk : q.1 = "#general"
      · rw [if_pos hk] at hg
        exact absurd rfl hg
      · rw [if_neg hk]
        rw [if_neg hk] at hg hh
        exact h q hq hg hh

set_option maxHeartbeats 2000000 in
theorem handle_command_nonempty (st : ServerState) (c : Nat)
    (command target content : String) (now : Nat) (hq : command ≠ "QUIT")
    (hnd : ChannelKeysNodup st) (h : NonDefaultNonempty st) :
    NonDefaultNonempty (handle_command st c command target content now).1 := by
  unfold handle_command
  cases hu : alookup st.usernames c with
  | none => exact h
  | some username =>
      try dsimp only
      repeat' split
      all_goals
        first
          | exact h
          | exact handleNick_nonempty _ _ _ _ _ h
          | exact handleJoin_nonempty _ _ _ _ _ h
          | exact handleLeave_nonempty _ _ _ _ _ hnd h
          | (rw [handleList_state]; exact h)
          | (rw [handleMsg_state]; exact h)
          | (rw [handleWhois_state]; exact h)
          | (exfalso; apply hq; assumption)

/-! ### Claim C1 -/

/-- C1, counterexample: the claim "every other channel exists iff its
member set is non-empty ... after every operation that can empty a
channel, including ... client disconnect" is false.  From the initial
state, accept socket 7, register `alice`, let her join the auto-created
`#random` (a state satisfying the invariant), then disconnect her:
`#random` still exists with an empty member set, because
`disconnect_client` removes memberships but never deletes emptied
channels (only the LEAVE handler does). -/
theorem c1_channel_existence_counterexample :
    Step (initialState 0) cexSt1 ∧ Step cexSt1 cexSt2 ∧ Step cexSt2 cexSt3 ∧
    Step cexSt3 cexSt4 ∧
    ChanInv cexSt3 ∧
    alookup cexSt4.channels "#random" = some ⟨[], "Welcome to #random", 2⟩ ∧
    ¬ ChanInv cexSt4 :=
  ⟨Step.accept (initialState 0) 7, Step.register cexSt1 7 "alice" 1,
   Step.line cexSt2 7 "alice" "/join random" 2, Step.disconnect cexSt3 7 3,
   by decide, by decide, by decide⟩

/-- C1, amended: `#general` and `#help` exist at every reachable state
(every step preserves them); the full invariant (every non-default channel
non-empty) is preserved by every command except QUIT, by registration and
by plain posts; client disconnect (and hence QUIT) preserves the default
channels but may leave a non-default channel empty without deleting it. -/
theorem c1_channel_existence_invariant :
    (∀ st st', Step st st' → DefaultsExist st → DefaultsExist st') ∧
    (∀ st c command target content now, command ≠ "QUIT" →
      ChannelKeysNodup st → ChanInv st →
      ChanInv (handle_command st c command target content now).1) ∧
    (∀ st c u now, ChanInv st → ChanInv (register_client st c u now).1) ∧
    (∀ st c u l now, ChanInv st → ChanInv (plain_post st c u l now).1) ∧
    (∀ st c now, DefaultsExist st →
      DefaultsExist (disconnect_client st c now).1) := by
  refine ⟨?_, ?_, ?_, ?_, ?_⟩
  · intro st st' hs hd
    cases hs with
    | accept a => exact hd
    | register a u n => exact register_defaults st a u n hd
    | line a u l n => exact handle_line_defaults st a u l n hd
    | disconnect a n => exact disconnect_defaults st a n hd
  · intro st c command target content now hq hnd h
    exact ⟨handle_command_defaults st c command target content now h.1,
           handle_command_nonempty st c command target content now hq hnd h.2⟩
  · intro st c u now h
    exact ⟨register_defaults st c u now h.1, register_nonempty st c u now h.2⟩
  · intro st c u l now h
    rw [plain_post_state]
    exact h
  · intro st c now h
    exact disconnect_defaults st c now h

/-- Witness for C1 (amended), instantiating every conjunct at concrete
inputs. -/
theorem c1_channel_existence_invariant_witness :
    DefaultsExist cexSt4 ∧
    ChanInv (handle_command wSt 0 "LEAVE" "#random" "" 9).1 ∧
    ChanInv (register_client wSt 2 "carol" 9).1 ∧
    ChanInv (plain_post wSt 0 "alice" "hi" 9).1 ∧
    DefaultsExist (disconnect_client wSt 0 9).1 :=
  ⟨c1_channel_existence_invariant.1 cexSt3 cexSt4 (Step.disconnect cexSt3 7 3)
     (by decide),
   c1_channel_existence_invariant.2.1 wSt 0 "LEAVE" "#random" "" 9
     (by decide) (by decide) (by decide),
   c1_channel_existence_invariant.2.2.1 wSt 2 "carol" 9 (by decide),
   c1_channel_existence_invariant.2.2.2.1 wSt 0 "alice" "hi" 9 (by decide),
   c1_channel_existence_invariant.2.2.2.2 wSt 0 9 (by decide)⟩

/-! ### Dispatch lemmas -/

theorem handle_command_nick (st : ServerState) (c : Nat)
    (u target content : String) (now : Nat)
    (hu : alookup st.usernames c = some u) (hne : u ≠ "") :
    handle_command st c "NICK" target content now = handleNick st c u target now := by
  unfold handle_command
  rw [hu]
  try dsimp only
  rw [if_neg hne]
  rfl

theorem handle_command_msg (st : ServerState) (c : Nat)
    (u target content : String) (now : Nat)
    (hu : alookup st.usernames c = some u) (hne : u ≠ "") :
    handle_command st c "MSG" target content now =
      handleMsg st c u target content now := by
  unfold handle_command
  rw [hu]
  try dsimp only
  rw [if_neg hne]
  rfl

/-! ### Claim C2 -/

/-- C2: when NICK succeeds (valid, non-duplicate stripped target) for a
registered client whose current name is `old`, afterwards the username
index maps the socket to the new name, every channel that contained `old`
contains the new name under the same channel name, and no channel contains
`old` any more. -/
theorem c2_nick_rename_atomic (st : ServerState) (c : Nat)
    (old target content : String) (now : Nat)
    (hu : alookup st.usernames c = some old) (hne : old ≠ "")
    (hvalid : reMatchNick (pyStrip target) = true)
    (hdup : pyStrip target ∉ avalues st.usernames) :
    alookup (handle_command st c "NICK" target content now).1.usernames c
        = some (pyStrip target) ∧
    (∀ p ∈ st.channels, old ∈ p.2.users →
      ∃ q ∈ (handle_command st c "NICK" target content now).1.channels,
        q.1 = p.1 ∧ pyStrip target ∈ q.2.users) ∧
    (∀ q ∈ (handle_command st c "NICK" target content now).1.channels,
      old ∉ q.2.users) := by
  have hsne : pyStrip target ≠ "" := by
    intro h
    rw [h] at hvalid
    exact absurd hvalid (by decide)
  have hold_mem : old ∈ avalues st.usernames := mem_avalues_of_alookup hu
  have holdne : old ≠ pyStrip target := fun he => hdup (he ▸ hold_mem)
  rw [handle_command_nick st c old target content now hu hne]
  unfold handleNick
  try dsimp only
  have hcond : (decide (pyStrip target = "") || !reMatchNick (pyStrip target))
      = false := by
    rw [hvalid]
    simp [hsne]
  rw [if_neg (by rw [hcond]; exact Bool.false_ne_true)]
  rw [if_neg hdup]
  try dsimp only
  refine ⟨alookup_aset_self _ _ _, ?_, ?_⟩
  · intro p hp hm
    refine ⟨(p.1, { p.2 with users := sadd (sremove p.2.users old) (pyStrip target) }),
      List.mem_map.mpr ⟨p, hp, by rw [if_pos hm]⟩, rfl, ?_⟩
    exact mem_sadd.mpr (Or.inr rfl)
  · intro q hq
    obtain ⟨p, hp, rfl⟩ := List.mem_map.mp hq
    by_cases hm : old ∈ p.2.users
    · rw [if_pos hm]
      intro hin
      dsimp only at hin
      rcases mem_sadd.mp hin with hin | hin
      · exact not_mem_sremove_self _ _ hin
      · exact holdne hin
    · rw [if_neg hm]
      exact hm

/-- Witness for C2: `alice` renames to `carol` in the concrete state
`wSt`. -/
theorem c2_nick_rename_atomic_witness :
    alookup (handle_command wSt 0 "NICK" "carol" "" 9).1.usernames 0
        = some (pyStrip "carol") ∧
    (∀ p ∈ wSt.channels, "alice" ∈ p.2.users →
      ∃ q ∈ (handle_command wSt 0 "NICK" "carol" "" 9).1.channels,
        q.1 = p.1 ∧ pyStrip "carol" ∈ q.2.users) ∧
    (∀ q ∈ (handle_command wSt 0 "NICK" "carol" "" 9).1.channels,
      "alice" ∉ q.2.users) :=
  c2_nick_rename_atomic wSt 0 "alice" "carol" "" 9 (by decide) (by decide)
    (by decide) (by decide)

/-! ### Claim C3 -/

/-- C3: when the stripped NICK target does not match the nickname regex or
is already a registered username, the sender gets a 400 response and the
whole state (username index, channels, everything) is unchanged. -/
theorem c3_nick_failure_unchanged (st : ServerState) (c : Nat)
    (u target content : String) (now : Nat)
    (hu : alookup st.usernames c = some u) (hne : u ≠ "")
    (hbad : reMatchNick (pyStrip target) = false ∨
      pyStrip target ∈ avalues st.usernames) :
    (handle_command st c "NICK" target content now).1 = st ∧
    ∃ m, (handle_command st c "NICK" target content now).2 =
      [(c, Frame.response "400" m now)] := by
  rw [handle_command_nick st c u target content now hu hne]
  unfold handleNick
  try dsimp only
  by_cases hinv : reMatchNick (pyStrip target) = false
  · rw [if_pos (by rw [hinv]; simp)]
    exact ⟨rfl, _, rfl⟩
  · rcases hbad with hbad | hbad
    · exact absurd hbad hinv
    · rw [Bool.not_eq_false] at hinv
      have hsne : pyStrip target ≠ "" := by
        intro h
        rw [h] at hinv
        exact absurd hinv (by decide)
      rw [if_neg (by rw [hinv]; simp [hsne])]
      rw [if_pos hbad]
      exact ⟨rfl, _, rfl⟩

/-- Witness for C3: renaming to the too-short `ab` (regex failure) and to
the taken `bob` (duplicate) both leave `wSt` unchanged with a 400. -/
theorem c3_nick_failure_unchanged_witness :
    ((handle_command wSt 0 "NICK" "ab" "" 9).1 = wSt ∧
      ∃ m, (handle_command wSt 0 "NICK" "ab" "" 9).2 =
        [(0, Frame.response "400" m 9)]) ∧
    ((handle_command wSt 0 "NICK" "bob" "" 9).1 = wSt ∧
      ∃ m, (handle_command wSt 0 "NICK" "bob" "" 9).2 =
        [(0, Frame.response "400" m 9)]) :=
  ⟨c3_nick_failure_unchanged wSt 0 "alice" "ab" "" 9 (by decide) (by decide)
      (Or.inl (by decide)),
   c3_nick_failure_unchanged wSt 0 "alice" "bob" "" 9 (by decide) (by decide)
      (Or.inr (by decide))⟩

/-! ### Claim C10 -/

/-- C10: a registered client issuing NICK with its own current username
(which, being a registered name, matches the nickname pattern) receives
the 400 duplicate response and the state is unchanged, because the
duplicate check `new_nick in self.usernames.values()` includes the
requester's own name. -/
theorem c10_nick_self_duplicate (st : ServerState) (c : Nat)
    (u content : String) (now : Nat)
    (hu : alookup st.usernames c = some u)
    (hcore : matchNickCore u = true) :
    handle_command st c "NICK" u content now =
      (st, [(c, Frame.response "400" "Nickname already in use." now)]) := by
  have hne : u ≠ "" := by
    intro h
    rw [h] at hcore
    exact absurd hcore (by decide)
  have hstrip : pyStrip u = u := pyStrip_eq_self_of_core hcore
  have hdupmem : u ∈ avalues st.usernames := mem_avalues_of_alookup hu
  rw [handle_command_nick st c u u content now hu hne]
  unfold handleNick
  try dsimp only
  rw [hstrip]
  have hre : reMatchNick u = true := by
    unfold reMatchNick
    rw [hcore]
    simp
  rw [if_neg (by rw [hre]; simp [hne])]
  rw [if_pos hdupmem]

/-- Witness for C10: `alice` tries `/nick alice` in `wSt`. -/
theorem c10_nick_self_duplicate_witness :
    handle_command wSt 0 "NICK" "alice" "" 9 =
      (wSt, [(0, Frame.response "400" "Nickname already in use." 9)]) :=
  c10_nick_self_duplicate wSt 0 "alice" "" 9 (by decide) (by decide)

/-! ### Claim C4 -/

theorem send_to_user_mem (st : ServerState) (name : String)
    (h : name ∈ avalues st.usernames) :
    ∃ r, send_to_user st name = some r ∧ (r, name) ∈ st.usernames := by
  unfold send_to_user
  have hs : (st.usernames.find? (fun p => p.2 == name)).isSome := by
    rw [List.find?_isSome]
    obtain ⟨q, hq, he⟩ := List.mem_map.mp h
    exact ⟨q, hq, by simp [he]⟩
  obtain ⟨q, hq⟩ := Option.isSome_iff_exists.mp hs
  have hq2 : q.2 = name := by
    have := List.find?_some hq
    simpa using this
  have hqmem : q ∈ st.usernames := List.mem_of_find?_eq_some hq
  refine ⟨q.1, by rw [hq]; rfl, ?_⟩
  rw [← hq2]
  exact hqmem

/-- C4: for a registered sender, MSG with an empty (stripped) target or
empty content yields a single 400 response and no private frame; MSG to an
unregistered name yields a single 404 response and no private frame;
otherwise exactly one private frame goes to a socket registered under the
recipient name, followed by a confirmation to the sender, with the state
unchanged throughout. -/
theorem c4_msg_delivery (st : ServerState) (c : Nat)
    (u target content : String) (now : Nat)
    (hu : alookup st.usernames c = some u) (hne : u ≠ "") :
    (pyStrip target = "" ∨ content = "" →
      handle_command st c "MSG" target content now =
        (st, [(c, Frame.response "400" "Usage: /msg <username> <message>" now)])) ∧
    (pyStrip target ≠ "" → content ≠ "" →
      pyStrip target ∉ avalues st.usernames →
      handle_command st c "MSG" target content now =
        (st, [(c, Frame.response "404"
          ("User " ++ pyStrip target ++ " not found.") now)])) ∧
    (pyStrip target ≠ "" → content ≠ "" →
      pyStrip target ∈ avalues st.usernames →
      ∃ r, (r, pyStrip target) ∈ st.usernames ∧
        handle_command st c "MSG" target content now =
          (st, [(r, Frame.message u "private" (pyStrip target) content now),
                (c, Frame.message "SERVER" "system" u
                  ("Message sent to " ++ pyStrip target) now)])) := by
  rw [handle_command_msg st c u target content now hu hne]
  unfold handleMsg
  try dsimp only
  refine ⟨?_, ?_, ?_⟩
  · intro h
    rw [if_pos (by rcases h with h | h <;> simp [h])]
  · intro h1 h2 h3
    rw [if_neg (by simp [h1, h2]), if_pos h3]
  · intro h1 h2 h3
    rw [if_neg (by simp [h1, h2]), if_neg (by simpa using h3)]
    obtain ⟨r, hr, hrm⟩ := send_to_user_mem st (pyStrip target) h3
    rw [hr]
    exact ⟨r, hrm, rfl⟩

/-- Witness for C4: all three MSG behaviours at concrete inputs in `wSt`. -/
theorem c4_msg_delivery_witness :
    (handle_command wSt 0 "MSG" "" "" 9 =
      (wSt, [(0, Frame.response "400" "Usage: /msg <username> <message>" 9)])) ∧
    (handle_command wSt 0 "MSG" "carol" "hi" 9 =
      (wSt, [(0, Frame.response "404" ("User " ++ pyStrip "carol" ++ " not found.") 9)])) ∧
    (∃ r, (r, pyStrip "bob") ∈ wSt.usernames ∧
      handle_command wSt 0 "MSG" "bob" "hi" 9 =
        (wSt, [(r, Frame.message "alice" "private" (pyStrip "bob") "hi" 9),
               (0, Frame.message "SERVER" "system" "alice"
                 ("Message sent to " ++ pyStrip "bob") 9)])) :=
  ⟨(c4_msg_delivery wSt 0 "alice" "" "" 9 (by decide) (by decide)).1
      (Or.inl (by decide)),
   (c4_msg_delivery wSt 0 "alice" "carol" "hi" 9 (by decide) (by decide)).2.1
      (by decide) (by decide) (by decide),
   (c4_msg_delivery wSt 0 "alice" "bob" "hi" 9 (by decide) (by decide)).2.2
      (by decide) (by decide) (by decide)⟩

/-! ### Claim C5 -/

/-- C5, counterexample: the claim routes plain posts by the sender's
membership, but the receive loop (server.py:455-472) uses the closure
variable `username` captured at registration, which is stale after a
successful NICK.  Reachable instance: `alice` (socket 7) renames to `bob`;
the socket's current username is `bob` and `bob` is a member of
`#general`, yet the next plain line — handled with the loop's captured
name `"alice"` exactly as the code does — produces a 400 "not in any
channel" response and no channel frame, instead of a post to `#general`. -/
theorem c5_plain_post_routing_counterexample :
    Step cexSt2 c5RenSt ∧
    alookup c5RenSt.usernames 7 = some "bob" ∧
    (∃ ch, alookup c5RenSt.channels "#general" = some ch ∧ "bob" ∈ ch.users) ∧
    parse_command "hello" = none ∧
    handle_line c5RenSt 7 "alice" "hello" 3 =
      (c5RenSt, [(7, Frame.response "400"
        "You are not in any channel. Join a channel first." 3)]) :=
  ⟨Step.line cexSt2 7 "alice" "/nick bob" 2, by decide, by decide, by decide,
   by decide⟩

/-- C5, amended: a received line that does not parse as a command is
routed by the username the receive loop captured at registration (stale
after a successful NICK; it equals the sender's current username only for
clients that never renamed): the line is posted as a channel frame to
`#general` when that captured username is a member there, otherwise to the
first channel (channel-dict insertion order) whose member set contains it,
and when no channel contains the captured username the sender gets a
single 400 response and no channel frame is broadcast. -/
theorem c5_plain_post_routing (st : ServerState) (c : Nat)
    (u line : String) (now : Nat)
    (hp : parse_command line = none) :
    ("#general" ∈ (st.channels.filter (fun p => p.2.users.contains u)).map (·.1) →
      handle_line st c u line now =
        (st, broadcast_to_channel st "#general"
          (Frame.message u "channel" "#general" line now) none)) ∧
    (∀ first rest,
      (st.channels.filter (fun p => p.2.users.contains u)).map (·.1) = first :: rest →
      "#general" ∉ (st.channels.filter (fun p => p.2.users.contains u)).map (·.1) →
      handle_line st c u line now =
        (st, broadcast_to_channel st first
          (Frame.message u "channel" first line now) none)) ∧
    ((st.channels.filter (fun p => p.2.users.contains u)).map (·.1) = [] →
      handle_line st c u line now =
        (st, [(c, Frame.response "400"
          "You are not in any channel. Join a channel first." now)])) := by
  unfold handle_line
  rw [hp]
  unfold plain_post
  try dsimp only
  refine ⟨?_, ?_, ?_⟩
  · intro hmem
    cases hm : (st.channels.filter (fun p => p.2.users.contains u)).map (·.1) with
    | nil => exact absurd (hm ▸ hmem) (by simp)
    | cons first rest =>
        try dsimp only
        rw [if_pos (by rw [← hm]; exact hmem)]
  · intro first rest hm hmem
    rw [hm]
    try dsimp only
    rw [if_neg (by rw [← hm]; exact hmem)]
  · intro hm
    rw [hm]

/-- Witness for C5: in `wSt`, `alice` (member of `#general`) posts there;
in a variant state where she is only in `#random`, the post goes to
`#random`; `carol` (no memberships) gets the 400. -/
theorem c5_plain_post_routing_witness :
    (handle_line wSt 0 "alice" "hello" 9 =
      (wSt, broadcast_to_channel wSt "#general"
        (Frame.message "alice" "channel" "#general" "hello" 9) none)) ∧
    (handle_line wSt 0 "carol" "hello" 9 =
      (wSt, [(0, Frame.response "400"
        "You are not in any channel. Join a channel first." 9)])) :=
  ⟨(c5_plain_post_routing wSt 0 "alice" "hello" 9 (by decide)).1 (by decide),
   (c5_plain_post_routing wSt 0 "carol" "hello" 9 (by decide)).2.2 (by decide)⟩

/-! ### Claim C6 -/

theorem pySplitN_length (n : Nat) : ∀ s, (pySplitN n s).length ≤ n + 1 := by
  induction n with
  | zero =>
      intro s
      rw [pySplitN]
      try dsimp only
      split
      · simp
      · simp
  | succ m ih =>
      intro s
      rw [pySplitN]
      try dsimp only
      split
      · simp
      · simp only [List.length_cons]
        have := ih ((s.dropWhile pyIsSpace).dropWhile (fun c => !(pyIsSpace c)))
        omega

theorem pySplit2_take2_nospace (s : String) :
    ∀ f ∈ (pySplit2 s).take 2, ∀ c ∈ f.data, pyIsSpace c = false := by
  unfold pySplit2
  intro f hf c hc
  rw [← List.map_take] at hf
  obtain ⟨l, hl, rfl⟩ := List.mem_map.mp hf
  have hc2 : c ∈ l := hc
  clear hc hf
  revert hl
  rw [pySplitN]
  try dsimp only
  split
  · intro hl; simp at hl
  · simp only [List.take_succ_cons]
    intro hl
    rcases List.mem_cons.mp hl with rfl | hl2
    · have := List.mem_takeWhile_imp hc2
      simpa using this
    · revert hl2
      rw [pySplitN]
      try dsimp only
      split
      · intro hl2; simp at hl2
      · simp only [List.take_succ_cons, List.take_zero]
        intro hl2
        rcases List.mem_cons.mp hl2 with rfl | hl3
        · have := List.mem_takeWhile_imp hc2
          simpa using this
        · simp at hl3

theorem pySplit2_drop2_suffix (s : String) :
    ∀ t ∈ (pySplit2 s).drop 2, t.data <:+ s.data ∧ t.data ≠ [] := by
  unfold pySplit2
  intro t ht
  rw [← List.map_drop] at ht
  obtain ⟨l, hl, rfl⟩ := List.mem_map.mp ht
  show l <:+ s.data ∧ l ≠ []
  revert hl
  rw [pySplitN]
  try dsimp only
  split
  · intro hl; simp at hl
  · simp only [List.drop_succ_cons]
    rw [pySplitN]
    try dsimp only
    split
    · intro hl; simp at hl
    · simp only [List.drop_succ_cons, List.drop_zero]
      rw [pySplitN]
      try dsimp only
      split
      · intro hl; simp at hl
      · rename_i hne2
        intro hl
        rw [List.mem_singleton] at hl
        subst hl
        constructor
        · exact (List.dropWhile_suffix _).trans
            ((List.dropWhile_suffix _).trans
              ((List.dropWhile_suffix _).trans
                ((List.dropWhile_suffix _).trans (List.dropWhile_suffix _))))
        · intro hnil
          apply hne2
          rw [hnil]
          rfl

/-- C6: `parse_command` yields `none` exactly for lines not starting with
`/`; for a `/`-line it applies `split(maxsplit=2)` to the rest, returning
the first field uppercased, the second field (or `""`), and the remainder
as content; the split yields at most three fields, the first two contain
no whitespace, and the third is a (non-empty) suffix of the input that may
itself contain whitespace. -/
theorem c6_parse_command_spec :
    (∀ l : String, parse_command l = none ↔ startsWithChar l '/' = false) ∧
    (∀ l : String, startsWithChar l '/' = true →
      parse_command l = some
        (pyUpper ((pySplit2 ⟨l.data.drop 1⟩).headD ""),
         (pySplit2 ⟨l.data.drop 1⟩).getD 1 "",
         (pySplit2 ⟨l.data.drop 1⟩).getD 2 "")) ∧
    (∀ s : String, (pySplit2 s).length ≤ 3) ∧
    (∀ s : String, ∀ f ∈ (pySplit2 s).take 2, ∀ c ∈ f.data, pyIsSpace c = false) ∧
    (∀ s : String, ∀ t ∈ (pySplit2 s).drop 2, t.data <:+ s.data ∧ t.data ≠ []) := by
  refine ⟨?_, ?_, ?_, pySplit2_take2_nospace, pySplit2_drop2_suffix⟩
  · intro l
    rcases Bool.eq_false_or_eq_true (startsWithChar l '/') with h | h <;>
      simp [parse_command, h]
  · intro l h
    unfold parse_command
    rw [if_pos h]
    try dsimp only
    cases hps : pySplit2 ⟨l.data.drop 1⟩ with
    | nil => rfl
    | cons a t =>
        cases t with
        | nil => rfl
        | cons b t2 =>
            cases t2 with
            | nil => rfl
            | cons c2 t3 => rfl
  · intro s
    unfold pySplit2
    rw [List.length_map]
    exact pySplitN_length 2 s.data

/-- Witness for C6: concrete parses of a non-command line and of
`/msg bob hi  there` (content keeps its inner whitespace). -/
theorem c6_parse_command_spec_witness :
    parse_command "hello world" = none ∧
    parse_command "/msg bob hi  there" = some ("MSG", "bob", "hi  there") ∧
    parse_command "/LIST" = some ("LIST", "", "") :=
  ⟨(c6_parse_command_spec.1 "hello world").mpr (by decide),
   ((c6_parse_command_spec.2.1 "/msg bob hi  there" (by decide)).trans (by decide)),
   ((c6_parse_command_spec.2.1 "/LIST" (by decide)).trans (by decide))⟩

/-! ### Claim C7 -/

/-- C7: disconnecting a client with (truthy) username `u` removes `u` from
every channel's member set, deletes the socket's username entry and the
`user_info` entry, and a second disconnect of the same socket is a no-op on
the state and sends nothing.  The count hypothesis is the representation
invariant that an accepted socket occurs at most once in `clients` (the
accept loop appends each fresh socket once). -/
theorem c7_disconnect_idempotent (st : ServerState) (c : Nat)
    (u : String) (now now2 : Nat)
    (hu : alookup st.usernames c = some u) (hne : u ≠ "")
    (hcount : st.clients.count c ≤ 1) :
    (∀ p ∈ (disconnect_client st c now).1.channels, u ∉ p.2.users) ∧
    alookup (disconnect_client st c now).1.usernames c = none ∧
    alookup (disconnect_client st c now).1.user_info u = none ∧
    disconnect_client (disconnect_client st c now).1 c now2 =
      ((disconnect_client st c now).1, []) := by
  have hd1 : (disconnect_client st c now).1 =
      { st with
          channels := st.channels.map (fun p =>
            if u ∈ p.2.users then (p.1, { p.2 with users := sremove p.2.users u })
            else p),
          usernames := aerase st.usernames c,
          user_info := aerase st.user_info u,
          clients := removeFirst st.clients c } := by
    unfold disconnect_client
    rw [hu]
    try dsimp only
    rw [if_neg hne]
  rw [hd1]
  refine ⟨?_, alookup_aerase_self _ _, alookup_aerase_self _ _, ?_⟩
  · intro p hp
    try dsimp only at hp
    obtain ⟨q, hq, rfl⟩ := List.mem_map.mp hp
    by_cases hm : u ∈ q.2.users
    · rw [if_pos hm]
      exact not_mem_sremove_self _ _
    · rw [if_neg hm]
      exact hm
  · have hnm : c ∉ removeFirst st.clients c := not_mem_removeFirst hcount
    unfold disconnect_client
    try dsimp only
    rw [alookup_aerase_self]
    rw [removeFirst_eq_of_not_mem hnm]

/-- Witness for C7: disconnecting socket 0 (`alice`) from `wSt` twice. -/
theorem c7_disconnect_idempotent_witness :
    (∀ p ∈ (disconnect_client wSt 0 9).1.channels, "alice" ∉ p.2.users) ∧
    alookup (disconnect_client wSt 0 9).1.usernames 0 = none ∧
    alookup (disconnect_client wSt 0 9).1.user_info "alice" = none ∧
    disconnect_client (disconnect_client wSt 0 9).1 0 10 =
      ((disconnect_client wSt 0 9).1, []) :=
  c7_disconnect_idempotent wSt 0 "alice" 9 10 (by decide) (by decide) (by decide)

/-! ### Claim C8 -/

/-- C8: every send produced by `broadcast_to_channel` goes to a currently
connected socket whose current username is in the channel's member set at
call time and which is not the excluded socket, and carries exactly the
given frame; for an unknown channel nothing is delivered. -/
theorem c8_broadcast_members_only (st : ServerState) (channel : String)
    (f : Frame) (exclude : Option Nat) :
    (∀ p ∈ broadcast_to_channel st channel f exclude,
      ∃ ch, alookup st.channels channel = some ch ∧
        p.1 ∈ st.clients ∧
        (∃ u, alookup st.usernames p.1 = some u ∧ u ∈ ch.users) ∧
        exclude ≠ some p.1 ∧ p.2 = f) ∧
    (alookup st.channels channel = none →
      broadcast_to_channel st channel f exclude = []) := by
  constructor
  · intro p hp
    unfold broadcast_to_channel at hp
    cases hch : alookup st.channels channel with
    | none => rw [hch] at hp; simp at hp
    | some ch =>
        rw [hch] at hp
        obtain ⟨sock, hsock, rfl⟩ := List.mem_map.mp hp
        have hf := List.mem_filter.mp hsock
        have hpred := hf.2
        refine ⟨ch, rfl, hf.1, ?_, ?_, rfl⟩
        · cases hku : alookup st.usernames sock with
          | none => rw [hku] at hpred; simp at hpred
          | some u =>
              rw [hku] at hpred
              simp only [Bool.and_eq_true] at hpred
              exact ⟨u, rfl, by
                have := hpred.1.2
                simpa using this⟩
        · cases hku : alookup st.usernames sock with
          | none => rw [hku] at hpred; simp at hpred
          | some u =>
              rw [hku] at hpred
              simp only [Bool.and_eq_true, Bool.not_eq_true'] at hpred
              intro he
              rw [he] at hpred
              simp at hpred
  · intro h
    unfold broadcast_to_channel
    rw [h]

/-- Witness for C8: a broadcast to `#general` in `wSt` (both members
receive it), and no delivery for the unknown `#nochannel`. -/
theorem c8_broadcast_members_only_witness :
    (∃ ch, alookup wSt.channels "#general" = some ch ∧
      (0 : Nat) ∈ wSt.clients ∧
      (∃ u, alookup wSt.usernames 0 = some u ∧ u ∈ ch.users) ∧
      (none : Option Nat) ≠ some 0 ∧
      (Frame.message "bob" "channel" "#general" "hi" 9) =
        Frame.message "bob" "channel" "#general" "hi" 9) ∧
    broadcast_to_channel wSt "#nochannel"
      (Frame.message "bob" "channel" "#nochannel" "hi" 9) none = [] :=
  ⟨(c8_broadcast_members_only wSt "#general"
      (Frame.message "bob" "channel" "#general" "hi" 9) none).1
      (0, Frame.message "bob" "channel" "#general" "hi" 9) (by decide),
   (c8_broadcast_members_only wSt "#nochannel"
      (Frame.message "bob" "channel" "#nochannel" "hi" 9) none).2 (by decide)⟩

end BetaIRC
